import Mathlib

/-!
Shallow embedding of django-conditional-views (src/django_conditional_views).

Conventions used throughout this development:
* Python byte strings are modelled as `List Nat` (each entry a byte value).
* Python `datetime` instants are modelled as `Int` values counting whole
  seconds since the Unix epoch, UTC.  All comparisons made by the source
  happen at one-second granularity after normalisation, so this abstraction
  is faithful for every property considered here; the Unix epoch itself is
  the integer 0.  Under this abstraction `calendar.timegm(d.utctimetuple())`
  is the identity map.
* Optional values (`None`) are modelled with `Option`.
* Python truthiness is modelled explicitly where the source relies on it:
  `None`, the empty string, the empty byte string, the integer zero and the
  empty list are falsy, everything else is truthy.
  A `datetime` object is always truthy.
* Raised exceptions are modelled with `Except`.
-/

/-! ## MD5 (hashlib.md5)

`ConditionalGetMixin._render_etag_elements` hashes the concatenated element
contributions with `hashlib.md5(...).hexdigest()`.  The MD5 digest is
implemented here over byte lists, with 32-bit words represented as `Nat`
reduced modulo `2 ^ 32`.
-/

def m32 : Nat := 4294967296

def not32 (a : Nat) : Nat := Nat.xor a 4294967295

def rotl32 (x c : Nat) : Nat := ((x <<< c) % m32) ||| (x >>> (32 - c))

/-- The 64 MD5 sine-derived round constants. -/
def md5K : List Nat :=
  [0xd76aa478, 0xe8c7b756, 0x242070db, 0xc1bdceee,
   0xf57c0faf, 0x4787c62a, 0xa8304613, 0xfd469501,
   0x698098d8, 0x8b44f7af, 0xffff5bb1, 0x895cd7be,
   0x6b901122, 0xfd987193, 0xa679438e, 0x49b40821,
   0xf61e2562, 0xc040b340, 0x265e5a51, 0xe9b6c7aa,
   0xd62f105d, 0x02441453, 0xd8a1e681, 0xe7d3fbc8,
   0x21e1cde6, 0xc33707d6, 0xf4d50d87, 0x455a14ed,
   0xa9e3e905, 0xfcefa3f8, 0x676f02d9, 0x8d2a4c8a,
   0xfffa3942, 0x8771f681, 0x6d9d6122, 0xfde5380c,
   0xa4beea44, 0x4bdecfa9, 0xf6bb4b60, 0xbebfbc70,
   0x289b7ec6, 0xeaa127fa, 0xd4ef3085, 0x04881d05,
   0xd9d4d039, 0xe6db99e5, 0x1fa27cf8, 0xc4ac5665,
   0xf4292244, 0x432aff97, 0xab9423a7, 0xfc93a039,
   0x655b59c3, 0x8f0ccc92, 0xffeff47d, 0x85845dd1,
   0x6fa87e4f, 0xfe2ce6e0, 0xa3014314, 0x4e0811a1,
   0xf7537e82, 0xbd3af235, 0x2ad7d2bb, 0xeb86d391]

/-- The 64 MD5 per-round left-rotation amounts. -/
def md5S : List Nat :=
  [7, 12, 17, 22, 7, 12, 17, 22, 7, 12, 17, 22, 7, 12, 17, 22,
   5, 9, 14, 20, 5, 9, 14, 20, 5, 9, 14, 20, 5, 9, 14, 20,
   4, 11, 16, 23, 4, 11, 16, 23, 4, 11, 16, 23, 4, 11, 16, 23,
   6, 10, 15, 21, 6, 10, 15, 21, 6, 10, 15, 21, 6, 10, 15, 21]

/-- Round function and message-word index for MD5 round `i`. -/
def md5F (i b c d : Nat) : Nat × Nat :=
  if i < 16 then ((b &&& c) ||| ((not32 b) &&& d), i)
  else if i < 32 then ((d &&& b) ||| ((not32 d) &&& c), (5 * i + 1) % 16)
  else if i < 48 then ((b ^^^ c) ^^^ d, (3 * i + 5) % 16)
  else (c ^^^ (b ||| (not32 d)), (7 * i) % 16)

/-- One MD5 round applied to the running state `(a, b, c, d)`. -/
def md5Round (msg : List Nat) (st : Nat × Nat × Nat × Nat) (i : Nat) :
    Nat × Nat × Nat × Nat :=
  match st with
  | (a, b, c, d) =>
    let fg := md5F i b c d
    let f := (fg.1 + a + md5K.getD i 0 + msg.getD fg.2 0) % m32
    (d, (b + rotl32 f (md5S.getD i 0)) % m32, b, c)

/-- `k` bytes of `n`, little-endian. -/
def leBytes : Nat → Nat → List Nat
  | 0, _ => []
  | k + 1, n => (n % 256) :: leBytes k (n / 256)

/-- A little-endian 32-bit word from up to four bytes. -/
def leWord (bs : List Nat) : Nat := bs.foldr (fun b acc => acc * 256 + b) 0

/-- Process one 64-byte block, updating the MD5 state. -/
def md5Block (st : Nat × Nat × Nat × Nat) (block : List Nat) :
    Nat × Nat × Nat × Nat :=
  let msg := (List.range 16).map (fun j => leWord ((block.drop (4 * j)).take 4))
  let r := (List.range 64).foldl (md5Round msg) st
  match st, r with
  | (a0, b0, c0, d0), (a, b, c, d) =>
    ((a0 + a) % m32, (b0 + b) % m32, (c0 + c) % m32, (d0 + d) % m32)

/-- MD5 padding: a 1-bit, zeros to 56 mod 64 bytes, then the bit length. -/
def md5Pad (bs : List Nat) : List Nat :=
  let len := bs.length
  let zeros := (119 - (len % 64)) % 64
  bs ++ (128 :: List.replicate zeros 0) ++ leBytes 8 ((len * 8) % (2 ^ 64))

/-- Split a byte list into successive 64-byte blocks; the first argument
is fuel bounding the recursion depth (structural recursion keeps the
definition computable by kernel reduction). -/
def chunks64Aux : Nat → List Nat → List (List Nat)
  | _, [] => []
  | 0, _ :: _ => []
  | fuel + 1, x :: xs => (x :: xs).take 64 :: chunks64Aux fuel ((x :: xs).drop 64)

/-- Split a byte list into successive 64-byte blocks. -/
def chunks64 (l : List Nat) : List (List Nat) := chunks64Aux l.length l

/-- The MD5 digest (16 bytes) of a byte list. -/
def md5 (bs : List Nat) : List Nat :=
  let final := (chunks64 (md5Pad bs)).foldl md5Block
    (0x67452301, 0xefcdab89, 0x98badcfe, 0x10325476)
  match final with
  | (a, b, c, d) => leBytes 4 a ++ leBytes 4 b ++ leBytes 4 c ++ leBytes 4 d

def hexDigitChar (n : Nat) : Char :=
  if n < 10 then Char.ofNat (48 + n) else Char.ofNat (87 + n)

def byteToHex (b : Nat) : List Char := [hexDigitChar (b / 16), hexDigitChar (b % 16)]

def bytesToHex (bs : List Nat) : String := String.mk ((bs.map byteToHex).flatten)

/-- `hashlib.md5(bs).hexdigest()`. -/
def md5hexdigest (bs : List Nat) : String := bytesToHex (md5 bs)

/-! ## ETag element contributions and aggregation

An ETag element returns either a Python `str` or a `bytes` value (or `None`).
In the source, `_render_etag_elements` first drops the falsy contributions
(`None`, the empty string and the empty byte string are all falsy), then
encodes `str` contributions to bytes, joins and hashes.
`EtagVal.str` carries the UTF-8 encoding of the string.
-/

inductive EtagVal where
  | str (bs : List Nat)
  | bytes (bs : List Nat)
deriving DecidableEq

/-- Python truthiness of an optional str/bytes contribution:
`None`, the empty string and the empty byte string are falsy. -/
def etagTruthy : Option EtagVal → Bool
  | none => false
  | some (.str s) => !s.isEmpty
  | some (.bytes b) => !b.isEmpty

/-- `x.encode() if isinstance(x, str) else x`: both variants end up as bytes. -/
def encodeEtagVal : EtagVal → List Nat
  | .str s => s
  | .bytes b => b

def encodeEtagOpt : Option EtagVal → List Nat
  | none => []
  | some v => encodeEtagVal v

/-- `ConditionalGetMixin._render_etag_elements` (views.py lines 102-108):
drop falsy contributions, encode strings to bytes, return `None` if nothing
remains, else the hex MD5 digest of the concatenation in list order. -/
def render_etag_elements (els : List (Option EtagVal)) : Option String :=
  let kept := els.filter etagTruthy
  let enc := kept.map encodeEtagOpt
  match enc with
  | [] => none
  | _ :: _ => some (md5hexdigest enc.flatten)

/-- Modelled from the spec (section 4.2, `aggregate_etag`): invoke every
element, discard the elements returning nothing, convert string
contributions to bytes, concatenate the non-empty contributions in
configured list order and return the hex-encoded cryptographic digest of
the concatenation, or nothing if nothing remains.  Stated for comparison
with the source translation `render_etag_elements`. -/
def aggregate_etag_spec (els : List (Option EtagVal)) : Option String :=
  let contribs := els.filterMap id
  let byteContribs := (contribs.map encodeEtagVal).filter (fun bs => !bs.isEmpty)
  match byteContribs with
  | [] => none
  | _ :: _ => some (md5hexdigest byteContribs.flatten)

/-! ## Last-Modified aggregation -/

/-- Python `max` over a list: `None` on the empty list (where the source
would not call it), otherwise the left fold of the binary maximum over the
remaining entries, seeded with the head. -/
def pyMaxL : List Int → Option Int
  | [] => none
  | x :: xs => some (xs.foldl max x)

/-- `ConditionalGetMixin.get_last_modified` (views.py lines 52-68).
The configured class attribute holds element instances or classes;
`instantiate` replaces classes with instances, so an element is modelled
directly as a function from the view state to its optional instant.  An
empty (or `None`, equally falsy) element list short-circuits to `None`;
otherwise each element is invoked against the view, falsy results are
dropped, and the maximum of the remaining instants is returned (`None`
when every element returned `None`). -/
def get_last_modified {V : Type} (elems : List (V → Option Int)) (view : V) :
    Option Int :=
  match elems with
  | [] => none
  | _ :: _ => pyMaxL ((elems.map (fun x => x view)).filterMap id)

/-! ## Responses

Only the parts of the Django response object that the core reads or writes
are modelled: the two validator headers, the streaming flag, the rendered
body bytes, the rendered flag, and the presence of the `render` and
`add_post_render_callback` hooks (`hasattr` probes in the source).
`postRenderCallbacks` counts callbacks registered through
`add_post_render_callback`.
-/

structure Response where
  etagHeader : Option String
  lastModifiedHeader : Option String
  streaming : Bool
  hasRender : Bool
  hasAddPostRenderCallback : Bool
  isRendered : Bool
  postRenderCallbacks : Nat
  content : List Nat
deriving DecidableEq

/-- `response.render()`: materialises `content` (already held in the model)
and marks the response rendered. -/
def renderResp (r : Response) : Response := { r with isRendered := true }

/-- `elements/etag.py`, `RenderedContentEtag.value`: render if needed and
return the body bytes as the contribution. -/
def RenderedContentEtag_value (r : Response) : Option EtagVal :=
  some (.bytes (renderResp r).content)

/-- `ConditionalGetMixin.get_pre_render_etag` (views.py lines 70-82). -/
def get_pre_render_etag {V : Type} (els : List (V → Option EtagVal)) (view : V) :
    Option String :=
  match els with
  | [] => none
  | _ :: _ => render_etag_elements (els.map (fun x => x view))

/-- `ConditionalGetMixin.get_post_render_etag` (views.py lines 84-100):
falsy element list or a response without a `render` hook yields `None`;
otherwise the response is rendered and the post-render elements are
aggregated against it. -/
def get_post_render_etag {V : Type} (els : List (V → Response → Option EtagVal))
    (view : V) (r : Response) : Option String :=
  match els with
  | [] => none
  | _ :: _ =>
    if !r.hasRender then none
    else render_etag_elements (els.map (fun x => x view (renderResp r)))

/-! ## Header formatting and preparation -/

/-- The `ETAG_MATCH` check inside `django.utils.http.quote_etag`:
an optional weak prefix, then a double-quoted run of non-quote characters. -/
def closedQuote : List Char → Bool
  | [] => false
  | [c] => c == '"'
  | c :: rest => c != '"' && closedQuote rest

def etagAlreadyQuoted (s : String) : Bool :=
  match s.data with
  | '"' :: rest => closedQuote rest
  | 'W' :: '/' :: '"' :: rest => closedQuote rest
  | _ => false

/-- `django.utils.http.quote_etag`: leave an already-quoted (or weak)
ETag alone, otherwise wrap it in double quotes. -/
def quote_etag (s : String) : String :=
  if etagAlreadyQuoted s then s else "\"" ++ s ++ "\""

/-- `django.utils.http.http_date`, an out-of-scope collaborator (RFC 1123
formatting of epoch seconds); abstracted as an injective rendering of the
epoch value. -/
def http_date (t : Int) : String := "http-date " ++ toString t

/-- Python truthiness of an optional string. -/
def truthyStrOpt : Option String → Bool
  | none => false
  | some s => !(s == "")

/-- Python truthiness of an optional epoch-seconds integer: 0 is falsy. -/
def truthyIntOpt : Option Int → Bool
  | none => false
  | some n => !(n == 0)

/-- `ConditionalGetMixin._format_etag` (views.py lines 202-207). -/
def format_etag : Option String → Option String
  | none => none
  | some s => if s == "" then none else some (quote_etag s)

/-- `ConditionalGetMixin._prep_etag` (views.py lines 198-200). -/
def prep_etag (etag : Option String) : Option String := format_etag etag

/-- `ConditionalGetMixin._prep_last_modified` (views.py lines 209-214):
`None` stays `None` (a `datetime` is always truthy, so the falsy test only
catches `None`); a datetime is normalised with `timegm(utctimetuple())`,
the identity under the epoch-seconds abstraction. -/
def prep_last_modified : Option Int → Option Int
  | none => none
  | some d => some d

/-- `ConditionalGetMixin._format_last_modified` (views.py lines 216-222),
at an already-prepped epoch value (the `isinstance(last_modified, datetime)`
branch re-applies `_prep_last_modified`, the identity here): falsy input,
including the integer 0, yields `None`; otherwise the HTTP date string. -/
def format_last_modified : Option Int → Option String
  | none => none
  | some t => if t == 0 then none else some (http_date t)

/-- `ConditionalGetMixin.set_response_headers` (views.py lines 110-129):
attach each header only when the corresponding value is truthy. -/
def set_response_headers (r : Response) (etag : Option String)
    (last_modified : Option Int) : Response :=
  let r1 := if truthyStrOpt etag then { r with etagHeader := format_etag etag } else r
  if truthyIntOpt last_modified then
    { r1 with lastModifiedHeader := format_last_modified last_modified }
  else r1


/-! ## Conditional dispatch controller

`get_conditional_response` is the Django standards-compliant conditional
request evaluator, consumed as a black box: it is a parameter mapping the
prepped validators to an optional short-circuit (304/412) response, with
the request folded into the function.  Virtual dispatch over
`self.get_last_modified` / `self.get_pre_render_etag` /
`self.get_post_render_etag` is modelled by passing those methods as
function parameters.
-/

structure DispatchOutcome where
  response : Response
  handlerInvoked : Bool
  callbackRegistered : Bool
deriving DecidableEq

structure CallbackOutcome where
  response : Response
  postEtagComputed : Bool
deriving DecidableEq

/-- `ConditionalGetMixin.dispatch` (views.py lines 131-171):
prep the validators, ask the evaluator; on a verdict return the
short-circuit response at once (the wrapped handler `super().dispatch` is
not invoked); otherwise invoke the handler, attach the already-known
headers, and register the post-render callback when the response supports
it.  `handlerInvoked` records whether the wrapped handler ran and
`callbackRegistered` whether a callback was registered. -/
def dispatch {V : Type} (glm : V → Option Int) (gpre : V → Option String)
    (condEval : Option String → Option Int → Option Response)
    (handler : V → Response) (view : V) : DispatchOutcome :=
  let last_modified := prep_last_modified (glm view)
  let etag := prep_etag (gpre view)
  match condEval etag last_modified with
  | some cr => ⟨cr, false, false⟩
  | none =>
    let r := handler view
    let r := set_response_headers r etag last_modified
    if r.hasAddPostRenderCallback then
      ⟨{ r with postRenderCallbacks := r.postRenderCallbacks + 1 }, true, true⟩
    else ⟨r, true, false⟩

/-- `ConditionalGetMixin._post_render_callback` (views.py lines 173-188):
read any existing ETag header; when it is falsy and the response is not
streaming, compute and format the post-render ETag (`postEtagComputed`
records whether this computation ran); re-ask the evaluator and either
substitute the short-circuit response or attach the final headers. -/
def post_render_callback {V : Type} (gpost : V → Response → Option String)
    (condEval : Option String → Option Int → Option Response)
    (view : V) (last_modified : Option Int) (r : Response) : CallbackOutcome :=
  let etag0 := r.etagHeader
  let shouldCompute := !truthyStrOpt etag0 && !r.streaming
  let etag := if shouldCompute then format_etag (gpost view r) else etag0
  match condEval etag last_modified with
  | some cr => ⟨cr, shouldCompute⟩
  | none => ⟨set_response_headers r etag last_modified, shouldCompute⟩

/-! ## Elements with failure modes -/

/-- The exceptions raised by element code: `ValueError` from
`BaseElement.__call__` on a capability mismatch, and
`django.core.exceptions.ImproperlyConfigured` from the last-modified
elements on a missing model field. -/
inductive ElemError where
  | valueError
  | improperlyConfigured
deriving DecidableEq

/-- `elements/base.py`, `BaseElement.__call__` (lines 15-18): raise
`ValueError` unless the view is an instance of the element `view_class`
(`view_ok` models the `isinstance` test), else delegate to `value`. -/
def BaseElement_call {V A : Type} (view_ok : V → Bool) (value : V → A)
    (view : V) : Except ElemError A :=
  if view_ok view then .ok (value view) else .error .valueError

/-- `elements/last_modified.py`, `ObjectLastModified.value` (lines 37-43):
fetch the object, raise `ImproperlyConfigured` when the model class has no
attribute named by the configured field, else return the raw field value
of the object (possibly `None`/blank). `schema` models the attribute names
of `view.model`; `objVals` models `getattr` on the retrieved object. -/
def ObjectLastModified_value (field : String) (schema : List String)
    (objVals : String → Option Int) : Except ElemError (Option Int) :=
  if schema.contains field then .ok (objVals field)
  else .error .improperlyConfigured

/-! ## The list-view mixin chain (for the empty-collection scenario) -/

/-- The view state a `ConditionalGetListViewMixin` exposes to its
last-modified elements: the template file modification instant, the model
attribute names, the configured `last_modified_field`, and the values of
that field over the queryset rows. -/
structure ListViewState where
  templateMTime : Int
  schema : List String
  lmField : String
  qsVals : List Int
deriving DecidableEq

/-- `elements/last_modified.py`, `TemplateLastModified.value` (lines 24-27):
the modification instant of the resolved template file (`select_template`
plus `os.stat`, external collaborators, modelled as the instant carried by
the view state). -/
def TemplateLastModified_value (st : ListViewState) : Int := st.templateMTime

/-- `elements/last_modified.py`, `QuerySetLastModified.value` (lines 54-61):
raise `ImproperlyConfigured` when the model has no such field, else the
first value of the queryset ordered by the field descending — the maximum
field value, or `None` on an empty queryset. -/
def QuerySetLastModified_value (field : String) (st : ListViewState) :
    Except ElemError (Option Int) :=
  if st.schema.contains field then .ok (pyMaxL st.qsVals)
  else .error .improperlyConfigured

/-- `ConditionalGetListViewMixin.get_last_modified` (views.py lines
272-278), for a view class with no class-level override
(`last_modified_elements` is `None`): materialise the queryset, extend the
element list to `[TemplateLastModified, QuerySetLastModified(field)]`, and
run the base aggregation of views.py lines 52-68, here inlined because the
queryset element can raise. -/
def listview_get_last_modified (st : ListViewState) :
    Except ElemError (Option Int) := do
  let tv : Option Int := some (TemplateLastModified_value st)
  let qv ← QuerySetLastModified_value st.lmField st
  pure (pyMaxL (([tv, qv] : List (Option Int)).filterMap id))

/-! ## Class-level element-list mutation across dispatches

`ConditionalGetDetailViewMixin.get_last_modified` (views.py lines 251-257)
and `ConditionalGetListViewMixin.get_last_modified` (lines 272-278) run

    self.last_modified_elements = self.last_modified_elements or []
    self.last_modified_elements.extend([...])

on a fresh instance per dispatch.  When the class attribute is `None` the
instance assignment rebinds a fresh empty list and the class attribute is
untouched; when it is an empty list, `or` evaluates to the fresh `[]`
literal, so again no aliasing; when it is a non-empty list, `or` returns
that very list object, the instance attribute aliases it, and `extend`
mutates the class-level list in place.  `extendElemsStep` is the effect of
one dispatch on the class attribute; `iterStep` iterates it across
dispatches (each dispatch starts from a fresh instance, so attribute
lookup falls back to the class attribute).
-/

inductive ElemTag where
  | templateLM
  | objectLM (field : String)
  | querySetLM (field : String)
  | preexisting (n : Nat)
deriving DecidableEq

def extendElemsStep (pair : List ElemTag) (cls : Option (List ElemTag)) :
    Option (List ElemTag) :=
  match cls with
  | none => none
  | some l => if l.isEmpty then some l else some (l ++ pair)

def iterStep (pair : List ElemTag) : Nat → Option (List ElemTag) → Option (List ElemTag)
  | 0, c => c
  | n + 1, c => iterStep pair n (extendElemsStep pair c)

/-! ## Concrete data for counterexamples and witnesses -/

def blankResponse : Response := ⟨none, none, false, false, false, false, 0, []⟩

/-- A contribution list: the strings "ab", "a", "b". -/
def etagL1 : List (Option EtagVal) :=
  [some (.str [97, 98]), some (.str [97]), some (.str [98])]

/-- A reordering of `etagL1` with the same concatenation "abab". -/
def etagL2 : List (Option EtagVal) :=
  [some (.str [97]), some (.str [98]), some (.str [97, 98])]

/-- The strings "a", "b". -/
def etagPairA : List (Option EtagVal) := [some (.str [97]), some (.str [98])]

/-- The strings "b", "a". -/
def etagPairB : List (Option EtagVal) := [some (.str [98]), some (.str [97])]


def streamingResponse : Response := ⟨none, none, true, false, false, false, 0, []⟩

/-! Helper lemmas. -/

theorem le_foldl_max (x : Int) (xs : List Int) : x ≤ xs.foldl max x := by
  induction xs generalizing x with
  | nil => exact le_refl x
  | cons y ys ih =>
    simp only [List.foldl_cons]
    exact le_trans (le_max_left x y) (ih (max x y))

theorem foldl_max_ub (xs : List Int) : ∀ b ∈ xs, ∀ x, b ≤ xs.foldl max x := by
  induction xs with
  | nil => intro b hb; cases hb
  | cons y ys ih =>
    intro b hb x
    simp only [List.foldl_cons]
    rcases List.mem_cons.mp hb with h | h
    · subst h; exact le_trans (le_max_right x b) (le_foldl_max _ _)
    · exact ih b h (max x y)

theorem foldl_max_mem (xs : List Int) (x : Int) : xs.foldl max x ∈ x :: xs := by
  induction xs generalizing x with
  | nil => simp
  | cons y ys ih =>
    simp only [List.foldl_cons]
    have h := ih (max x y)
    rcases List.mem_cons.mp h with h1 | h1
    · rw [h1]
      rcases max_choice x y with hx | hy
      · rw [hx]; exact List.mem_cons_self _ _
      · rw [hy]; exact List.mem_cons_of_mem _ (List.mem_cons_self _ _)
    · exact List.mem_cons_of_mem _ (List.mem_cons_of_mem _ h1)

theorem pyMaxL_spec (l : List Int) (m : Int) (h : pyMaxL l = some m) :
    m ∈ l ∧ ∀ b ∈ l, b ≤ m := by
  cases l with
  | nil => cases h
  | cons x xs =>
    simp only [pyMaxL, Option.some.injEq] at h
    subst h
    refine ⟨foldl_max_mem xs x, ?_⟩
    intro b hb
    rcases List.mem_cons.mp hb with h1 | h1
    · subst h1; exact le_foldl_max _ _
    · exact foldl_max_ub xs b h1 x

theorem pyMaxL_isSome (l : List Int) (h : l ≠ []) : ∃ m, pyMaxL l = some m := by
  cases l with
  | nil => exact absurd rfl h
  | cons x xs => exact ⟨_, rfl⟩

theorem pyMaxL_perm (l1 l2 : List Int) (p : l1.Perm l2) : pyMaxL l1 = pyMaxL l2 := by
  cases l1 with
  | nil =>
    have h2 : l2 = [] := p.symm.eq_nil
    rw [h2]
  | cons x xs =>
    cases l2 with
    | nil => exact absurd p.eq_nil (List.cons_ne_nil x xs)
    | cons y ys =>
      obtain ⟨m1, hm1⟩ := pyMaxL_isSome (x :: xs) (List.cons_ne_nil x xs)
      obtain ⟨m2, hm2⟩ := pyMaxL_isSome (y :: ys) (List.cons_ne_nil y ys)
      obtain ⟨mem1, ub1⟩ := pyMaxL_spec _ _ hm1
      obtain ⟨mem2, ub2⟩ := pyMaxL_spec _ _ hm2
      rw [hm1, hm2]
      exact congrArg some
        (le_antisymm (ub2 m1 (p.mem_iff.mp mem1)) (ub1 m2 (p.mem_iff.mpr mem2)))

theorem set_response_headers_hasCallback (r : Response) (e : Option String)
    (lm : Option Int) :
    (set_response_headers r e lm).hasAddPostRenderCallback
      = r.hasAddPostRenderCallback := by
  simp only [set_response_headers]
  split <;> split <;> rfl

theorem iterStep_growth (pair : List ElemTag) (l : List ElemTag) (n : Nat)
    (h : l ≠ []) :
    iterStep pair n (some l) = some (l ++ (List.replicate n pair).flatten) := by
  induction n generalizing l with
  | zero => simp [iterStep]
  | succ k ih =>
    have hne : l.isEmpty = false := by
      cases l with
      | nil => exact absurd rfl h
      | cons a as => rfl
    have step : extendElemsStep pair (some l) = some (l ++ pair) := by
      simp [extendElemsStep, hne]
    calc iterStep pair (k + 1) (some l)
        = iterStep pair k (extendElemsStep pair (some l)) := rfl
      _ = iterStep pair k (some (l ++ pair)) := by rw [step]
      _ = some ((l ++ pair) ++ (List.replicate k pair).flatten) :=
          ih (l ++ pair) (fun hc => h (List.append_eq_nil.mp hc).1)
      _ = some (l ++ (List.replicate (k + 1) pair).flatten) := by
          simp [List.replicate_succ, List.append_assoc]

/-! Claim theorems. -/

/-- Claim C1: whenever the conditional evaluator, given the prepped
pre-render ETag and last-modified values, returns a short-circuit
(not-modified or precondition-failed) response, `ConditionalGetMixin.dispatch`
returns exactly that response, the wrapped handler `super().dispatch` is
never invoked (for any handler whatsoever), and no callback is registered,
so no side effect of the wrapped handler occurs. -/
theorem claim_C1 (V : Type) (glm : V → Option Int) (gpre : V → Option String)
    (condEval : Option String → Option Int → Option Response) (view : V)
    (cr : Response)
    (h : condEval (prep_etag (gpre view)) (prep_last_modified (glm view)) = some cr) :
    ∀ handler : V → Response,
      dispatch glm gpre condEval handler view = ⟨cr, false, false⟩ := by
  intro handler
  simp only [dispatch]
  rw [h]

theorem claim_C1_witness :
    dispatch (fun _ : Unit => (none : Option Int)) (fun _ => (none : Option String))
      (fun _ _ => some blankResponse) (fun _ => streamingResponse) ()
      = ⟨blankResponse, false, false⟩ :=
  claim_C1 Unit (fun _ => none) (fun _ => none) (fun _ _ => some blankResponse)
    () blankResponse rfl (fun _ => streamingResponse)

/-- Claim C2: `ConditionalGetDetailViewMixin.get_last_modified` and
`ConditionalGetListViewMixin.get_last_modified` extend the class-level
`last_modified_elements` list in place from an instance method, so when the
view class declares a non-empty class-level list, `n` dispatches append `n`
duplicate copies of `[TemplateLastModified, ObjectLastModified(field)]`
(resp. `[TemplateLastModified, QuerySetLastModified(field)]`) to the shared
class-level list. -/
theorem claim_C2 (l : List ElemTag) (f : String) (n : Nat) (h : l ≠ []) :
    iterStep [ElemTag.templateLM, ElemTag.objectLM f] n (some l)
      = some (l ++ (List.replicate n [ElemTag.templateLM, ElemTag.objectLM f]).flatten)
    ∧ iterStep [ElemTag.templateLM, ElemTag.querySetLM f] n (some l)
      = some (l ++ (List.replicate n [ElemTag.templateLM, ElemTag.querySetLM f]).flatten) :=
  ⟨iterStep_growth _ l n h, iterStep_growth _ l n h⟩

theorem claim_C2_witness :
    iterStep [ElemTag.templateLM, ElemTag.objectLM "modified"] 2
        (some [ElemTag.preexisting 0])
      = some [ElemTag.preexisting 0, ElemTag.templateLM, ElemTag.objectLM "modified",
              ElemTag.templateLM, ElemTag.objectLM "modified"]
    ∧ iterStep [ElemTag.templateLM, ElemTag.querySetLM "modified"] 2
        (some [ElemTag.preexisting 0])
      = some [ElemTag.preexisting 0, ElemTag.templateLM, ElemTag.querySetLM "modified",
              ElemTag.templateLM, ElemTag.querySetLM "modified"] := by
  simpa using claim_C2 [ElemTag.preexisting 0] "modified" 2 (by decide)

/-- Claim C6: an `ObjectLastModified` element configured with a field name
absent from the model schema raises `ImproperlyConfigured`; when the field
exists but the value on the object is blank/null, the element returns
nothing and no error is raised. -/
theorem claim_C6 (field : String) (schema : List String)
    (objVals : String → Option Int) :
    (schema.contains field = false →
      ObjectLastModified_value field schema objVals = .error .improperlyConfigured)
    ∧ (schema.contains field = true → objVals field = none →
      ObjectLastModified_value field schema objVals = .ok none) := by
  constructor
  · intro h
    simp only [ObjectLastModified_value, h]
    rfl
  · intro h hv
    simp only [ObjectLastModified_value, h, hv]
    rfl

theorem claim_C6_witness :
    ObjectLastModified_value "modified" ["name"] (fun _ => none)
      = .error .improperlyConfigured
    ∧ ObjectLastModified_value "modified" ["modified"] (fun _ => none) = .ok none :=
  ⟨(claim_C6 "modified" ["name"] (fun _ => none)).1 (by decide),
   (claim_C6 "modified" ["modified"] (fun _ => none)).2 (by decide) rfl⟩

/-- Claim C7: `BaseElement.__call__` against a view that is not an instance
of the declared `view_class` raises a `ValueError` (the TypeKind error of
the spec taxonomy) and never returns a value. -/
theorem claim_C7 (V A : Type) (view_ok : V → Bool) (value : V → A) (view : V)
    (h : view_ok view = false) :
    BaseElement_call view_ok value view = .error .valueError
    ∧ ∀ a : A, BaseElement_call view_ok value view ≠ .ok a := by
  have he : BaseElement_call view_ok value view = .error .valueError := by
    simp [BaseElement_call, h]
  exact ⟨he, fun a hc => by rw [he] at hc; exact Except.noConfusion hc⟩

theorem claim_C7_witness :
    BaseElement_call (fun _ : Unit => false) (fun _ => (0 : Int)) ()
      = .error .valueError
    ∧ ∀ a : Int, BaseElement_call (fun _ : Unit => false) (fun _ => (0 : Int)) ()
      ≠ .ok a :=
  claim_C7 Unit Int (fun _ => false) (fun _ => 0) () rfl

/-- Claim C10: a computed Last-Modified instant equal to the Unix epoch
normalises to the integer 0, which `_format_last_modified` and
`set_response_headers` treat as falsy/absent, so the Last-Modified header
is not attached even though a modification instant was computed. -/
theorem claim_C10 :
    prep_last_modified (some 0) = some 0
    ∧ format_last_modified (some 0) = none
    ∧ ∀ (r : Response) (e : Option String),
        (set_response_headers r e (some 0)).lastModifiedHeader
          = r.lastModifiedHeader := by
  refine ⟨rfl, rfl, ?_⟩
  intro r e
  cases he : truthyStrOpt e <;>
    simp [set_response_headers, he, truthyIntOpt]

theorem etag_kept_eq (els : List (Option EtagVal)) :
    (els.filter etagTruthy).map encodeEtagOpt
      = ((els.filterMap id).map encodeEtagVal).filter (fun bs => !bs.isEmpty) := by
  induction els with
  | nil => rfl
  | cons x xs ih =>
    cases x with
    | none => simpa [etagTruthy] using ih
    | some v =>
      have ht : etagTruthy (some v) = !(encodeEtagVal v).isEmpty := by
        cases v <;> rfl
      by_cases he : (encodeEtagVal v).isEmpty
      · simp [ht, he, ih]
      · simp [ht, he, ih, encodeEtagOpt]

theorem render_eq_spec (els : List (Option EtagVal)) :
    render_etag_elements els = aggregate_etag_spec els := by
  simp only [render_etag_elements, aggregate_etag_spec]
  rw [etag_kept_eq els]

/-- Claim C3 counterexample: `etagL2` is a genuine reordering of `etagL1`
(a permutation and a different list), yet the aggregated digest is
unchanged, because the reordering happens to preserve the concatenated
byte sequence; so reordering the element list does not always change the
resulting digest. -/
theorem claim_C3_counterexample :
    etagL1 ≠ etagL2 ∧ etagL1.Perm etagL2
      ∧ render_etag_elements etagL1 = render_etag_elements etagL2 :=
  ⟨by decide, by decide, by decide⟩

/-- Claim C3 (amended): the ETag aggregation converts string contributions
to bytes, concatenates the non-empty contributions in configured list
order and returns the hex-encoded cryptographic digest of the
concatenation (the refinement equality against the spec-side
`aggregate_etag_spec`, which also gives determinism for a fixed list
order); the digest depends on the order, so reordering the element list
can change the resulting digest, as the swapped pair of one-byte
contributions shows. -/
theorem claim_C3_amended :
    (∀ els : List (Option EtagVal),
        render_etag_elements els = aggregate_etag_spec els)
    ∧ etagPairA.Perm etagPairB
    ∧ render_etag_elements etagPairA ≠ render_etag_elements etagPairB :=
  ⟨render_eq_spec, by decide, by decide⟩

/-- Claim C4: when the configured last-modified elements produce at least
one instant, `get_last_modified` returns the maximum of the produced
instants, and the result does not depend on the order of the element
list. -/
theorem claim_C4 (V : Type) (elems elems2 : List (V → Option Int)) (view : V)
    (hp : elems.Perm elems2)
    (hv : (elems.map (fun x => x view)).filterMap id ≠ []) :
    (∃ m, get_last_modified elems view = some m
        ∧ m ∈ (elems.map (fun x => x view)).filterMap id
        ∧ ∀ b ∈ (elems.map (fun x => x view)).filterMap id, b ≤ m)
    ∧ get_last_modified elems view = get_last_modified elems2 view := by
  cases elems with
  | nil => simp at hv
  | cons e es =>
    cases elems2 with
    | nil => exact absurd hp.eq_nil (List.cons_ne_nil e es)
    | cons f fs =>
      have hperm : (((e :: es).map (fun x => x view)).filterMap id).Perm
          (((f :: fs).map (fun x => x view)).filterMap id) :=
        (hp.map (fun x => x view)).filterMap id
      have hglm : get_last_modified (e :: es) view
          = pyMaxL (((e :: es).map (fun x => x view)).filterMap id) := rfl
      have hglm2 : get_last_modified (f :: fs) view
          = pyMaxL (((f :: fs).map (fun x => x view)).filterMap id) := rfl
      obtain ⟨m, hm⟩ := pyMaxL_isSome _ hv
      obtain ⟨mem1, ub1⟩ := pyMaxL_spec _ _ hm
      refine ⟨⟨m, by rw [hglm, hm], mem1, ub1⟩, ?_⟩
      rw [hglm, hglm2]
      exact pyMaxL_perm _ _ hperm

theorem claim_C4_witness :
    get_last_modified [fun _ : Unit => some (3 : Int), fun _ => some 7] ()
      = get_last_modified [fun _ : Unit => some (7 : Int), fun _ => some 3] ()
    ∧ get_last_modified [fun _ : Unit => some (3 : Int), fun _ => some 7] ()
      = some 7 := by
  have h := claim_C4 Unit [fun _ => some 3, fun _ => some 7]
    [fun _ => some 7, fun _ => some 3] ()
    (List.Perm.swap (fun _ => some 7) (fun _ => some 3) []) (by decide)
  exact ⟨h.2, by decide⟩

theorem map_apply_all_none {V : Type} (els : List (V → Option Int)) (view : V)
    (h : ∀ e ∈ els, e view = none) :
    (els.map (fun x => x view)).filterMap id = [] := by
  induction els with
  | nil => rfl
  | cons e es ih =>
    have he : e view = none := h e (List.mem_cons_self e es)
    have hr := ih (fun x hx => h x (List.mem_cons_of_mem e hx))
    simp [he, hr]

theorem render_etag_all_none (els : List (Option EtagVal))
    (h : ∀ x ∈ els, x = none) : render_etag_elements els = none := by
  have hf : els.filter etagTruthy = [] := by
    rw [List.filter_eq_nil_iff]
    intro a ha
    rw [h a ha]
    simp [etagTruthy]
  simp [render_etag_elements, hf]

/-- Claim C5: when every configured element returns nothing (including the
vacuous case of no elements at all), the last-modified aggregation and
both ETag aggregations return nothing, the prepped validators are nothing,
and `set_response_headers` attaches neither header. -/
theorem claim_C5 (V : Type) (lmEls : List (V → Option Int))
    (preEls : List (V → Option EtagVal))
    (postEls : List (V → Response → Option EtagVal)) (view : V) (r : Response)
    (h1 : ∀ e ∈ lmEls, e view = none)
    (h2 : ∀ e ∈ preEls, e view = none)
    (h3 : ∀ e ∈ postEls, ∀ resp, e view resp = none) :
    get_last_modified lmEls view = none
    ∧ get_pre_render_etag preEls view = none
    ∧ get_post_render_etag postEls view r = none
    ∧ render_etag_elements (preEls.map (fun x => x view)) = none
    ∧ prep_last_modified none = none
    ∧ prep_etag none = none
    ∧ ∀ resp : Response, set_response_headers resp none none = resp := by
  have hall : ∀ x ∈ preEls.map (fun x => x view), x = none := by
    intro x hx
    obtain ⟨e, he, rfl⟩ := List.mem_map.mp hx
    exact h2 e he
  refine ⟨?_, ?_, ?_, render_etag_all_none _ hall, rfl, rfl, ?_⟩
  · cases lmEls with
    | nil => rfl
    | cons e es =>
      have : ((e :: es).map (fun x => x view)).filterMap id = [] :=
        map_apply_all_none (e :: es) view h1
      simp only [get_last_modified, this]
      rfl
  · cases preEls with
    | nil => rfl
    | cons e es => exact render_etag_all_none _ hall
  · cases postEls with
    | nil => rfl
    | cons e es =>
      have hall3 : ∀ x ∈ (e :: es).map (fun x => x view (renderResp r)), x = none := by
        intro x hx
        obtain ⟨g, hg, rfl⟩ := List.mem_map.mp hx
        exact h3 g hg (renderResp r)
      simp only [get_post_render_etag]
      cases hr : r.hasRender with
      | false => simp [hr]
      | true => simpa using render_etag_all_none _ hall3
  · intro resp
    simp [set_response_headers, truthyStrOpt, truthyIntOpt]

theorem claim_C5_witness :
    get_last_modified [fun _ : Unit => (none : Option Int)] () = none
    ∧ get_pre_render_etag [fun _ : Unit => (none : Option EtagVal)] () = none
    ∧ get_post_render_etag [fun _ : Unit => fun _ => (none : Option EtagVal)] ()
        blankResponse = none
    ∧ render_etag_elements
        (([fun _ : Unit => (none : Option EtagVal)]).map (fun x => x ())) = none
    ∧ set_response_headers blankResponse none none = blankResponse := by
  have h := claim_C5 Unit [fun _ => none] [fun _ => none] [fun _ => fun _ => none]
    () blankResponse
    (fun e he => by rw [List.mem_singleton] at he; subst he; rfl)
    (fun e he => by rw [List.mem_singleton] at he; subst he; rfl)
    (fun e he resp => by rw [List.mem_singleton] at he; subst he; rfl)
  exact ⟨h.1, h.2.1, h.2.2.1, h.2.2.2.1, h.2.2.2.2.2.2 blankResponse⟩

/-- Claim C8: the post-render ETag phase is gated threefold.  When the
rendered response has no `add_post_render_callback` hook, `dispatch`
returns the step-3 response (headers attached) unchanged, registering no
callback.  In the registered callback, the post-render ETag computation
runs exactly when the response has no truthy ETag header already and is
not streaming; in particular, for a streaming response the computation is
skipped entirely — the outcome does not depend on `get_post_render_etag`
at all. -/
theorem claim_C8 (V : Type) (glm : V → Option Int) (gpre : V → Option String)
    (gpost : V → Response → Option String)
    (condEval : Option String → Option Int → Option Response)
    (handler : V → Response) (view : V) :
    (condEval (prep_etag (gpre view)) (prep_last_modified (glm view)) = none →
      (handler view).hasAddPostRenderCallback = false →
      dispatch glm gpre condEval handler view =
        ⟨set_response_headers (handler view) (prep_etag (gpre view))
            (prep_last_modified (glm view)), true, false⟩)
    ∧ (∀ (lm : Option Int) (r : Response),
        (post_render_callback gpost condEval view lm r).postEtagComputed
          = (!truthyStrOpt r.etagHeader && !r.streaming))
    ∧ (∀ (lm : Option Int) (r : Response), r.streaming = true →
        ∀ gpost2 : V → Response → Option String,
          post_render_callback gpost condEval view lm r
            = post_render_callback gpost2 condEval view lm r) := by
  refine ⟨?_, ?_, ?_⟩
  · intro h1 h2
    simp only [dispatch]
    rw [h1]
    have hc : (set_response_headers (handler view) (prep_etag (gpre view))
        (prep_last_modified (glm view))).hasAddPostRenderCallback = false := by
      rw [set_response_headers_hasCallback]
      exact h2
    simp [hc]
  · intro lm r
    simp only [post_render_callback]
    split <;> rfl
  · intro lm r hs gpost2
    simp [post_render_callback, hs]

theorem claim_C8_witness :
    dispatch (fun _ : Unit => (none : Option Int)) (fun _ => (none : Option String))
        (fun _ _ => none) (fun _ => blankResponse) ()
      = ⟨blankResponse, true, false⟩
    ∧ (post_render_callback (fun _ : Unit => fun _ => (none : Option String))
        (fun _ _ => none) () none streamingResponse).postEtagComputed = false
    ∧ post_render_callback (fun _ : Unit => fun _ => some "body-hash")
        (fun _ _ => none) () none streamingResponse
      = post_render_callback (fun _ _ => none) (fun _ _ => none) () none
          streamingResponse := by
  refine ⟨?_, ?_, ?_⟩
  · exact (claim_C8 Unit (fun _ => none) (fun _ => none) (fun _ _ => none)
      (fun _ _ => none) (fun _ => blankResponse) ()).1 rfl rfl
  · exact (claim_C8 Unit (fun _ => none) (fun _ => none) (fun _ _ => none)
      (fun _ _ => none) (fun _ => blankResponse) ()).2.1 none streamingResponse
  · exact (claim_C8 Unit (fun _ => none) (fun _ => none)
      (fun _ => fun _ => some "body-hash") (fun _ _ => none)
      (fun _ => blankResponse) ()).2.2 none streamingResponse rfl (fun _ _ => none)

/-- Claim C9 counterexample: the claim as stated is false at a template
file whose modification instant is exactly the Unix epoch.  For the list
view state with an empty queryset, the field present in the schema and
template instant 0, the queryset element contributes nothing and the
aggregated Last-Modified is the template value as claimed, but the
normalised value 0 is falsy, so `set_response_headers` attaches no
Last-Modified header: the header is absent, not present. -/
theorem claim_C9_counterexample :
    QuerySetLastModified_value "modified" ⟨0, ["modified"], "modified", []⟩
      = .ok none
    ∧ listview_get_last_modified ⟨0, ["modified"], "modified", []⟩
      = .ok (some 0)
    ∧ (set_response_headers blankResponse none
          (prep_last_modified (some 0))).lastModifiedHeader = none
    ∧ format_last_modified (some 0) = none :=
  ⟨rfl, rfl, rfl, rfl⟩

/-- Claim C9 (amended): for a list view over an empty collection whose
template exists and with no class-level last-modified override, the
queryset element contributes nothing and the aggregated Last-Modified is
exactly the template element value; the Last-Modified header is then
present (the formatted template instant) whenever the template instant
does not normalise to the falsy epoch value 0 — in the epoch corner the
header is absent. -/
theorem claim_C9_amended (st : ListViewState) (h1 : st.qsVals = [])
    (h2 : st.schema.contains st.lmField = true) (h3 : st.templateMTime ≠ 0) :
    QuerySetLastModified_value st.lmField st = .ok none
    ∧ listview_get_last_modified st = .ok (some st.templateMTime)
    ∧ ∀ (r : Response) (e : Option String),
        (set_response_headers r e
            (prep_last_modified (some st.templateMTime))).lastModifiedHeader
          = some (http_date st.templateMTime) := by
  have hq : QuerySetLastModified_value st.lmField st = .ok none := by
    simp only [QuerySetLastModified_value, h2, h1]
    rfl
  refine ⟨hq, ?_, ?_⟩
  · simp only [listview_get_last_modified, hq, TemplateLastModified_value]
    rfl
  · intro r e
    have hb : (st.templateMTime == 0) = false := by
      rw [beq_eq_false_iff_ne]
      exact h3
    cases he : truthyStrOpt e <;>
      simp [set_response_headers, he, truthyIntOpt, prep_last_modified,
        format_last_modified, hb]

theorem claim_C9_amended_witness :
    QuerySetLastModified_value "modified" ⟨100, ["modified"], "modified", []⟩
      = .ok none
    ∧ listview_get_last_modified ⟨100, ["modified"], "modified", []⟩
      = .ok (some 100)
    ∧ (set_response_headers blankResponse none
          (prep_last_modified (some 100))).lastModifiedHeader
      = some (http_date 100) := by
  obtain ⟨a, b, c⟩ :=
    claim_C9_amended ⟨100, ["modified"], "modified", []⟩ rfl (by decide) (by decide)
  exact ⟨a, b, c blankResponse none⟩
